import Mathlib

/-!
Shallow embedding of the Leftrb repository (src/leftrb/bst.py and
src/leftrb/llrb.py), the packaged Left-Leaning Red-Black tree library.

Modelling conventions:

* Python `None` children are the constructor `Node.nil`; a real
  `LeftRB.Node` object is `Node.node key val left right color height value`.
  The extra field `value` models the attribute created by the statement
  `h.value = h.right.search(h.right.min())` in `LeftRB._delete`
  (llrb.py line 286): the attribute name `value` differs from the attribute
  `val` that `search` reads, so the field is written there and read nowhere.
* Keys are `Int` (the repository compares keys with `==` and `<` only);
  values are a type parameter `V`, stored as `Option V` because the Python
  default is `val=None`.  `Node.search` returns the value if it is not None,
  otherwise the key (bst.py line 47), hence its result type `Option (V ⊕ Int)`.
* Python dynamic failures become `Except PyErr`: an `AttributeError`
  (attribute access on `None`, or a missing attribute), an `AssertionError`
  (the `assert` in `_delete`), and a `NameError` for the two undefined
  globals `rotateRight` and `fixUp` referenced by `LeftRB._delete_max`
  (llrb.py lines 329 and 339).  When an exception propagates, in-place
  mutations already performed by the aborted call are not retained by the
  embedding: every caller in the repository lets the exception escape the
  public operation, so the post-crash state is not observed through the
  public API.
* The recursive delete family is not structurally recursive on the tree
  (`_move_red_left` and friends rebuild the argument), so those functions
  take a fuel argument mirroring Python's recursion limit; exhaustion is
  the distinguished `PyErr.recursionError` and is never hit at the concrete
  inputs evaluated below.
* Methods that Python only ever invokes on a non-None node (`Node.min`,
  `Node.max`, attribute accessors) are totalised with an arbitrary result
  on `nil`; every use below sits under the same guard the Python source
  uses, so the `nil` case is unreachable along the embedded control flow.
* Class dispatch is resolved statically as Python's MRO resolves it: the
  packaged `LeftRB` (llrb.py) does not override `_insert`, so
  `LeftRB.insert` runs `BinarySearchTree._insert` (bst.py lines 78-93) with
  `cls = LeftRB`, and `cls.Node(key, value)` builds a `LeftRB.Node`
  (RED, height 1).  The balancing method `LeftRB.Node.insert`
  (llrb.py lines 76-91) is on no call path of the public API.
-/

namespace Leftrb

/-- Python exceptions that the embedded code can raise. -/
inductive PyErr where
  | attributeError : PyErr
  | assertionError : PyErr
  | nameError (missing : String) : PyErr
  | recursionError : PyErr
deriving DecidableEq

/-- RED = True (llrb.py line 38). -/
def RED : Bool := true

/-- BLACK = False (llrb.py line 39). -/
def BLACK : Bool := false

/-- A possibly absent LeftRB.Node.  `nil` is Python's `None`; `node` carries
the attributes `key`, `val` (bst.py lines 38-40), `left`, `right`
(bst.py line 36), `color`, `height` (llrb.py lines 71-74) and the dead
attribute `value` written only by `LeftRB._delete` (llrb.py line 286). -/
inductive Node (V : Type) : Type where
  | nil : Node V
  | node (key : Int) (val : Option V) (left right : Node V)
         (color : Bool) (height : Nat) (value : Option (V ⊕ Int)) : Node V
deriving DecidableEq

variable {V : Type}

/-- Truthiness of a node: Python `if h:` is `h is not None`. -/
def Node.isNil : Node V → Bool
  | .nil => true
  | .node .. => false

/-- Attribute `h.key`.  Unreachable on `nil` (Python would raise before):
every use below is guarded by a non-None test, as in the source. -/
def Node.key : Node V → Int
  | .nil => 0
  | .node k _ _ _ _ _ _ => k

/-- Attribute `h.val` (bst.py line 40). -/
def Node.val : Node V → Option V
  | .nil => none
  | .node _ v _ _ _ _ _ => v

/-- Attribute `h.left`; `nil` case unreachable under the source's guards. -/
def Node.left : Node V → Node V
  | .nil => .nil
  | .node _ _ l _ _ _ _ => l

/-- Attribute `h.right`; `nil` case unreachable under the source's guards. -/
def Node.right : Node V → Node V
  | .nil => .nil
  | .node _ _ _ r _ _ _ => r

/-- Attribute `h.height`; `nil` case unreachable under the source's guards. -/
def Node.heightAttr : Node V → Nat
  | .nil => 0
  | .node _ _ _ _ _ ht _ => ht

/-- Assignment `h.key = k`. -/
def Node.setKey (h : Node V) (k : Int) : Node V :=
  match h with
  | .nil => .nil
  | .node _ v l r c ht dv => .node k v l r c ht dv

/-- Assignment `h.left = l`. -/
def Node.setLeft (h : Node V) (l : Node V) : Node V :=
  match h with
  | .nil => .nil
  | .node k v _ r c ht dv => .node k v l r c ht dv

/-- Assignment `h.right = r`. -/
def Node.setRight (h : Node V) (r : Node V) : Node V :=
  match h with
  | .nil => .nil
  | .node k v l _ c ht dv => .node k v l r c ht dv

/-- Assignment `h.color = c`. -/
def Node.setColor (h : Node V) (c : Bool) : Node V :=
  match h with
  | .nil => .nil
  | .node k v l r _ ht dv => .node k v l r c ht dv

/-- Assignment `h.value = x` (the attribute `_delete` creates; llrb.py 286). -/
def Node.setValue (h : Node V) (x : Option (V ⊕ Int)) : Node V :=
  match h with
  | .nil => .nil
  | .node k v l r c ht _ => .node k v l r c ht x

/-- The function `is_red(h)` (llrb.py lines 42-46): `None` is not an
instance of `LeftRB.Node`, so it is not red. -/
def is_red : Node V → Bool
  | .nil => false
  | .node _ _ _ _ c _ _ => c == RED

/-- The function `is_black(h)` (llrb.py lines 49-53): `not is_red(h)`. -/
def is_black (h : Node V) : Bool :=
  !is_red h

/-- Method `BinarySearchTree.Node.search` (bst.py lines 42-52), inherited by
`LeftRB.Node`.  Returns `self.val` if it is not None, else `self.key`, when
the key matches; descends only when the corresponding child is truthy.  The
`nil` case is unreachable: the method is never invoked on `None`. -/
def Node.search : Node V → Int → Option (V ⊕ Int)
  | .nil, _ => none
  | .node k v l r _ _ _, key =>
    if k == key then
      some (match v with | some x => .inl x | none => .inr k)
    else if key < k && !l.isNil then
      l.search key
    else if k < key && !r.isNil then
      r.search key
    else
      none

/-- Method `BinarySearchTree.Node.min` (bst.py lines 54-58): the key of the
leftmost node.  `nil` case unreachable (never invoked on `None`). -/
def Node.min : Node V → Int
  | .nil => 0
  | .node k _ l _ _ _ _ =>
    match l with
    | .nil => k
    | l => l.min

/-- Method `BinarySearchTree.Node.max` (bst.py lines 60-64): the key of the
rightmost node.  `nil` case unreachable (never invoked on `None`). -/
def Node.max : Node V → Int
  | .nil => 0
  | .node k _ _ r _ _ _ =>
    match r with
    | .nil => k
    | r => r.max

/-- Method `LeftRB.Node.size` (llrb.py lines 93-98):
`1 + sum(map(size, filter(None, [left, right])))`; the `nil` value 0 encodes
a child filtered out by `filter(None, ...)`. -/
def Node.size : Node V → Nat
  | .nil => 0
  | .node _ _ l r _ _ _ => 1 + l.size + r.size

/-- Classmethod `BinarySearchTree._insert` (bst.py lines 78-93) as dispatched
from the packaged `LeftRB` (which does not override it): `cls` is `LeftRB`,
so `cls.Node(key, value)` is a `LeftRB.Node` - color RED, height 1
(llrb.py lines 71-74).  On an equal key only `h.val` is assigned. -/
def insertRec : Node V → Int → Option V → Node V
  | .nil, key, value => .node key value .nil .nil RED 1 none
  | .node k v l r c ht dv, key, value =>
    if k == key then
      .node k value l r c ht dv
    else if key < k then
      .node k v (insertRec l key value) r c ht dv
    else
      .node k v l (insertRec r key value) c ht dv

/-- Method `LeftRB.insert` (llrb.py lines 242-247): run the inherited
`BinarySearchTree.insert` (bst.py lines 72-76), i.e.
`self.root = self._insert(self.root, key, value)`, then
`self.root.color = BLACK`.  The tree state is its root node. -/
def insertT (root : Node V) (key : Int) (value : Option V) : Node V :=
  (insertRec root key value).setColor BLACK

/-- Method `BinarySearchTree.search` (bst.py lines 66-70), inherited by
`LeftRB`: `return self.root.search(key)`.  On an empty tree this is an
attribute access on `None` and raises `AttributeError`. -/
def searchT (root : Node V) (key : Int) : Except PyErr (Option (V ⊕ Int)) :=
  match root with
  | .nil => .error .attributeError
  | h => .ok (h.search key)

/-- Method `LeftRB.__contains__` (llrb.py lines 212-216):
`self.search(key) is not None`. -/
def containsT (root : Node V) (key : Int) : Except PyErr Bool :=
  (searchT root key).map Option.isSome

/-- Method `LeftRB.__len__` (llrb.py lines 218-222):
`0 if self.root is None else self.root.size()`. -/
def lenT (root : Node V) : Nat :=
  match root with
  | .nil => 0
  | h => h.size

/-- Method `LeftRB.height` (llrb.py lines 224-228):
`0 if self.root is None else self.root.height`. -/
def heightT (root : Node V) : Nat :=
  match root with
  | .nil => 0
  | h => h.heightAttr

/-- Method `LeftRB.min` (llrb.py lines 230-234):
`None if self.root is None else self.root.min()`. -/
def minT (root : Node V) : Option Int :=
  match root with
  | .nil => none
  | h => some h.min

/-- Method `LeftRB.max` (llrb.py lines 236-240):
`None if self.root is None else self.root.max()`. -/
def maxT (root : Node V) : Option Int :=
  match root with
  | .nil => none
  | h => some h.max

/-- Method `LeftRB.Node._flip_colors` (llrb.py lines 128-134): toggles the
colors of `self`, `self.left` and `self.right` in place.  When a child is
`None` the attribute assignment raises `AttributeError` (the color flip of
`self` already performed is then lost to the escaping exception, see the
module comment). -/
def Node.flipColors : Node V → Except PyErr (Node V)
  | .nil => .error .attributeError
  | .node k v l r c ht dv =>
    match l, r with
    | .node lk lv ll lr lc lht ldv, .node rk rv rl rr rc rht rdv =>
      .ok (.node k v (.node lk lv ll lr (!lc) lht ldv)
                     (.node rk rv rl rr (!rc) rht rdv) (!c) ht dv)
    | _, _ => .error .attributeError

/-- Method `LeftRB.Node._rotate_left` (llrb.py lines 159-176):
`x = self.right; self.right = x.left; x.left = self; x.color = self.color;
self.color = RED; return x`.  `x.color` reads the original `self.color`
(the RED assignment to `self` comes after), and the final `self` aliased
into `x.left` carries the RED color.  `self.right` being `None` makes
`x.left` raise `AttributeError`. -/
def Node.rotateLeft : Node V → Except PyErr (Node V)
  | .nil => .error .attributeError
  | .node k v l r c ht dv =>
    match r with
    | .nil => .error .attributeError
    | .node xk xv xl xr _ xht xdv =>
      .ok (.node xk xv (.node k v l xl RED ht dv) xr c xht xdv)

/-- Method `LeftRB.Node._rotate_right` (llrb.py lines 178-195): the mirror
of `_rotate_left` on the left link. -/
def Node.rotateRight : Node V → Except PyErr (Node V)
  | .nil => .error .attributeError
  | .node k v l r c ht dv =>
    match l with
    | .nil => .error .attributeError
    | .node xk xv xl xr _ xht xdv =>
      .ok (.node xk xv xl (.node k v xr r RED ht dv) c xht xdv)

/-- Method `LeftRB.Node._setHeight` (llrb.py lines 197-203):
`self.height = 1 + max(self.left and self.left.height or 0,
self.right and self.right.height or 0)`; a falsy child contributes 0. -/
def Node.setHeight : Node V → Node V
  | .nil => .nil
  | .node k v l r c _ dv =>
    .node k v l r c (1 + Max.max l.heightAttr r.heightAttr) dv

/-- Method `LeftRB.Node._fix_up` (llrb.py lines 112-126): rotate left on a
red right link, rotate right on two consecutive red left links, flip colors
when both children are red, then `_setHeight`. -/
def Node.fixUp (s : Node V) : Except PyErr (Node V) := do
  let s ← if is_red s.right then s.rotateLeft else pure s
  let s ← if is_red s.left && !s.left.isNil && is_red s.left.left then
            s.rotateRight
          else pure s
  let s ← if is_red s.left && is_red s.right then s.flipColors else pure s
  pure s.setHeight

/-- Method `LeftRB.Node._move_red_left` (llrb.py lines 136-146). -/
def Node.moveRedLeft (s : Node V) : Except PyErr (Node V) := do
  let s ← s.flipColors
  if !s.right.isNil && is_red s.right.left then do
    let r ← s.right.rotateRight
    let s ← (s.setRight r).rotateLeft
    s.flipColors
  else
    pure s

/-- Method `LeftRB.Node._move_red_right` (llrb.py lines 148-157). -/
def Node.moveRedRight (s : Node V) : Except PyErr (Node V) := do
  let s ← s.flipColors
  if !s.left.isNil && is_red s.left.left then do
    let s ← s.rotateRight
    s.flipColors
  else
    pure s

/-- Method `LeftRB._delete_min` (llrb.py lines 301-314).  Invoked on `None`
(empty tree) the first statement `h.left` raises `AttributeError`.  The
recursion is on `h.left` after `_move_red_left` may have restructured `h`,
so the embedding carries fuel standing for Python's recursion limit. -/
def deleteMinRec (fuel : Nat) (h : Node V) : Except PyErr (Node V) :=
  match fuel with
  | 0 => .error .recursionError
  | fuel + 1 =>
    match h with
    | .nil => .error .attributeError
    | h =>
      if h.left.isNil then
        .ok .nil
      else do
        let h ← if is_black h.left && !h.left.isNil && is_black h.left.left then
                  h.moveRedLeft
                else pure h
        let l ← deleteMinRec fuel h.left
        (h.setLeft l).fixUp

/-- Method `LeftRB.delete_min` (llrb.py lines 294-299):
`self.root = self._delete_min(self.root); self.root.color = BLACK`.  When
`_delete_min` returns `None` (the last node was removed) the color
assignment raises `AttributeError`. -/
def deleteMinT (fuel : Nat) (root : Node V) : Except PyErr (Node V) := do
  let r ← deleteMinRec fuel root
  match r with
  | .nil => .error .attributeError
  | r => .ok (r.setColor BLACK)

/-- Method `LeftRB._delete_max` (llrb.py lines 323-339).  The branch guarded
by `is_red(h.left)` calls the undefined global `rotateRight` and the final
statement calls the undefined global `fixUp`: both raise `NameError` when
reached.  Invoked on `None` the first test `h.left` raises
`AttributeError`. -/
def deleteMaxRec (fuel : Nat) (h : Node V) : Except PyErr (Node V) :=
  match fuel with
  | 0 => .error .recursionError
  | fuel + 1 =>
    match h with
    | .nil => .error .attributeError
    | h =>
      if is_red h.left then
        .error (.nameError "rotateRight")
      else if h.right.isNil then
        .ok .nil
      else do
        let h ← if is_black h.right && !h.right.isNil && is_black h.right.left then
                  h.moveRedRight
                else pure h
        -- h.right = cls._delete_max(h.right): the recursive call runs first
        -- (its exception propagates); the assignment to h.right is then dead
        -- because `return fixUp(h)` raises NameError unconditionally.
        let _ ← deleteMaxRec fuel h.right
        .error (.nameError "fixUp")

/-- Method `LeftRB.delete_max` (llrb.py lines 316-321):
`self.root = self._delete_max(self.root); self.root.color = BLACK`. -/
def deleteMaxT (fuel : Nat) (root : Node V) : Except PyErr (Node V) := do
  let r ← deleteMaxRec fuel root
  match r with
  | .nil => .error .attributeError
  | r => .ok (r.setColor BLACK)

/-- Method `LeftRB._delete` (llrb.py lines 265-292).  Notable details kept
from the source: the `assert h.search(key) is not None` line (on `h = None`
the attribute access itself raises `AttributeError`); and in the
`key == h.key` branch the successor's value is assigned to the attribute
`value` - not `val`, the attribute `search` reads - so `h.val` keeps the
deleted node's payload while only `h.key` is replaced. -/
def deleteRec (fuel : Nat) (h : Node V) (key : Int) : Except PyErr (Node V) :=
  match fuel with
  | 0 => .error .recursionError
  | fuel + 1 =>
    match h with
    | .nil => .error .attributeError
    | h =>
      if (h.search key).isNone then
        .error .assertionError
      else if key < h.key then do
        let h ← if is_black h.left && !h.left.isNil && is_black h.left.left then
                  h.moveRedLeft
                else pure h
        let l ← deleteRec fuel h.left key
        (h.setLeft l).fixUp
      else do
        let h ← if is_red h.left then h.rotateRight else pure h
        if key == h.key && h.right.isNil then
          .ok .nil
        else do
          let h ← if is_black h.right && !h.right.isNil && is_black h.right.left then
                    h.moveRedRight
                  else pure h
          let h ←
            if key == h.key then do
              match h.right with
              | .nil => .error .attributeError
              | r => do
                let h := h.setValue (r.search r.min)
                let h := h.setKey r.min
                let r2 ← deleteMinRec fuel r
                pure (h.setRight r2)
            else do
              let r ← deleteRec fuel h.right key
              pure (h.setRight r)
          h.fixUp

/-- Method `LeftRB.delete` (llrb.py lines 249-263): an absent key is
reported by a message on stderr and `return False` (the tree is untouched);
otherwise the root is recolored RED when both its children are black,
`_delete` runs, and a non-empty root is recolored BLACK.  The result pairs
the new root with the Python return value (`False` or the implicit
`None`).  On an empty tree the membership test itself calls
`BinarySearchTree.search` on `root = None` and raises `AttributeError`. -/
def deleteT (fuel : Nat) (root : Node V) (key : Int) :
    Except PyErr (Node V × Option Bool) := do
  let c ← containsT root key
  if !c then
    pure (root, some false)
  else do
    let root := if is_black root.left && is_black root.right then
                  root.setColor RED
                else root
    let root ← deleteRec fuel root key
    let root := if !root.isNil then root.setColor BLACK else root
    pure (root, none)

/-- A node of the standalone `BinarySearchTree` (bst.py lines 32-40): key,
optional value, children; no color or height.  `nil` is Python's `None`.
Used to state the refinement of `LeftRB.insert` to the naive insert. -/
inductive BNode (V : Type) : Type where
  | nil : BNode V
  | node (key : Int) (val : Option V) (left right : BNode V) : BNode V
deriving DecidableEq

/-- Classmethod `BinarySearchTree._insert` (bst.py lines 78-93) run on the
standalone class itself: `cls.Node` is the plain `BinarySearchTree.Node`. -/
def BNode.bstInsert : BNode V → Int → Option V → BNode V
  | .nil, key, value => .node key value .nil .nil
  | .node k v l r, key, value =>
    if k == key then
      .node k value l r
    else if key < k then
      .node k v (bstInsert l key value) r
    else
      .node k v l (bstInsert r key value)

/-- Projection of a LeftRB node onto the naive BST node: forgets color,
height and the dead `value` attribute, keeping structure, keys and
payloads. -/
def Node.toBST : Node V → BNode V
  | .nil => .nil
  | .node k v l r _ _ _ => .node k v l.toBST r.toBST

/-- Shape of a tree: structure and key placement only (no payloads, colors
or heights).  Used to state shape preservation. -/
inductive Shape : Type where
  | nil : Shape
  | node (key : Int) (left right : Shape) : Shape
deriving DecidableEq

/-- Shape of a LeftRB tree. -/
def Node.shapeOf : Node V → Shape
  | .nil => .nil
  | .node k _ l r _ _ _ => .node k l.shapeOf r.shapeOf

/-- Does the tree hold `k` at a position the insertion descent reaches?
Mirrors the comparison chain of `_insert` (bst.py lines 86-91). -/
def Node.hasKey : Node V → Int → Bool
  | .nil, _ => false
  | .node k _ l r _ _ _, key =>
    if k == key then true
    else if key < k then l.hasKey key
    else r.hasKey key

/-- Checker for the spec's left-leaning invariant: no reachable node has a
RED right child link. -/
def noRedRight : Node V → Bool
  | .nil => true
  | .node _ _ l r _ _ _ => !is_red r && noRedRight l && noRedRight r

/-- Checker for the spec's height bookkeeping: every node's cached `height`
attribute equals 1 plus the maximum of its children's cached heights (an
absent child counting 0, as in `_setHeight`, llrb.py lines 197-203). -/
def heightsConsistent : Node V → Bool
  | .nil => true
  | .node _ _ l r _ ht _ =>
    (ht == 1 + Max.max l.heightAttr r.heightAttr)
      && heightsConsistent l && heightsConsistent r

/-- The public operation sequence `insert(key, value)` applied from the
empty tree over a list of key/value pairs (`LeftRB()` then repeated
`insert`). -/
def buildT (l : List (Int × Option V)) : Node V :=
  l.foldl (fun t kv => insertT t kv.1 kv.2) .nil

/-- The tree after `insert(1)` then `insert(2)` on a fresh `LeftRB()`. -/
def exampleT12 : Node Int :=
  insertT (insertT .nil 1 none) 2 none

/-- The tree after `insert(10, "u")` then `insert(20, "v")`. -/
def exampleUV : Node String :=
  insertT (insertT .nil 10 (some "u")) 20 (some "v")

/-- The root that `delete(10)` leaves behind on `exampleUV`: the surviving
key 20 carries the deleted node's payload "u" in `val` (the successor's
"v" went to the dead attribute `value`). -/
def exampleUVdel : Node String :=
  .node 20 (some "u") .nil .nil BLACK 1 (some (.inl "v"))

/-- The tree after `insert(1, "a")` then `insert(2, "b")`. -/
def exampleAB : Node String :=
  insertT (insertT .nil 1 (some "a")) 2 (some "b")

/-- The root that `delete(1)` leaves behind on `exampleAB`. -/
def exampleABdel : Node String :=
  .node 2 (some "a") .nil .nil BLACK 1 (some (.inl "b"))

/-- C1 (code bug): the left-leaning invariant fails on the code.  After the
public operations `insert(1); insert(2)` from the empty tree, the root's
right child link is RED: `LeftRB.insert` runs the inherited unbalanced
`BinarySearchTree._insert` and never rebalances (the balancing
`LeftRB.Node.insert` is on no call path). -/
theorem C1_insert_leaves_red_right_child :
    noRedRight exampleT12 = false ∧ is_red exampleT12.right = true := by
  decide

/-- C3 (code bug): after `insert(1); insert(2)` the tree's public `height()`
still reports the root's stale cached height 1, while the claim's
bottom-up bookkeeping (each node's `height` = 1 + max of children's cached
heights) fails at the root: insertion never calls `_setHeight`. -/
theorem C3_cached_heights_stale_after_insert :
    heightT exampleT12 = 1 ∧ heightsConsistent exampleT12 = false := by
  decide

/-- C5 (code bug): `delete(10)` on the tree `{10 ↦ "u", 20 ↦ "v"}` removes
key 10 and shrinks the size by 1, but the surviving key 20 now searches to
"u" - the deleted key's payload - because `_delete` writes the successor's
value to the attribute `value` instead of `val` (llrb.py line 286). -/
theorem C5_delete_corrupts_surviving_value :
    deleteT 20 exampleUV 10 = .ok (exampleUVdel, none) ∧
    searchT exampleUVdel 10 = .ok none ∧
    lenT exampleUVdel = 1 ∧
    searchT exampleUVdel 20 = .ok (some (.inl "u")) ∧
    (some (Sum.inl "u") : Option (String ⊕ Int)) ≠ some (Sum.inl "v") :=
  ⟨rfl, rfl, rfl, rfl, by decide⟩

/-- C6 (code bug): key 2 is inserted with value "b" and never deleted or
overwritten, yet after the unrelated `delete(1)` the search for 2 returns
"a" (the same `val` / `value` slip as C5). -/
theorem C6_inserted_value_lost_after_delete :
    deleteT 20 exampleAB 1 = .ok (exampleABdel, none) ∧
    searchT exampleABdel 2 = .ok (some (.inl "a")) ∧
    (some (Sum.inl "a") : Option (String ⊕ Int)) ≠ some (Sum.inl "b") :=
  ⟨rfl, rfl, by decide⟩

/-- C7 (code bug): `delete_max()` never removes the maximum.  On the
two-key tree it reaches `return fixUp(h)` and raises `NameError` (`fixUp`
is undefined); on a singleton tree `_delete_max` returns `None` and the
follow-up `self.root.color = BLACK` raises `AttributeError`. -/
theorem C7_delete_max_always_raises :
    deleteMaxT 20 exampleT12 = .error (.nameError "fixUp") ∧
    deleteMaxT 20 (insertT (.nil : Node Int) 1 none) = .error .attributeError :=
  ⟨rfl, rfl⟩

/-- C8 (code bug): `delete(1)` on the empty tree crashes instead of
reporting KeyNotFound: the membership guard calls
`BinarySearchTree.search`, which dereferences `self.root = None`.  On a
non-empty tree a missing key is indeed reported non-fatally (`False`) with
the tree unmodified. -/
theorem C8_delete_on_empty_tree_crashes :
    deleteT 20 (.nil : Node Int) 1 = .error .attributeError ∧
    deleteT 20 exampleT12 99 = .ok (exampleT12, some false) :=
  ⟨rfl, rfl⟩

/-- C9 (code bug): on the empty tree `min()` and `max()` do report absence,
but `delete_min()` and `delete_max()` dereference the `None` root
(`h.left`) and raise `AttributeError` instead of failing gracefully. -/
theorem C9_empty_delete_min_max_crash :
    deleteMinT 20 (.nil : Node Int) = .error .attributeError ∧
    deleteMaxT 20 (.nil : Node Int) = .error .attributeError ∧
    minT (.nil : Node Int) = none ∧
    maxT (.nil : Node Int) = none :=
  ⟨rfl, rfl, rfl, rfl⟩

/-- Helper: recoloring a node does not change its naive-BST projection. -/
theorem toBST_setColor (t : Node V) (c : Bool) :
    (t.setColor c).toBST = t.toBST := by
  cases t <;> rfl

/-- Helper: the insertion run by the packaged `LeftRB` commutes with the
projection onto the standalone naive BST insert. -/
theorem toBST_insertRec (t : Node V) (key : Int) (value : Option V) :
    (insertRec t key value).toBST = t.toBST.bstInsert key value := by
  induction t with
  | nil => rfl
  | node k v l r c ht dv ihl ihr =>
    by_cases h1 : k == key
    · simp [insertRec, BNode.bstInsert, Node.toBST, h1]
    · by_cases h2 : key < k
      · simp [insertRec, BNode.bstInsert, Node.toBST, h1, h2, ihl]
      · simp [insertRec, BNode.bstInsert, Node.toBST, h1, h2, ihr]

/-- C2 (confirmed): for every tree and key/value, the packaged
`LeftRB.insert` produces exactly the naive unbalanced
`BinarySearchTree._insert` result (same structure, keys and payloads,
witnessed through the projection `toBST`) with the root recolored BLACK:
the dispatch runs `BinarySearchTree._insert`, and no rotation or color
flip touches the tree. -/
theorem C2_insert_is_naive_bst_insert (t : Node V) (key : Int)
    (value : Option V) :
    (insertT t key value).toBST = t.toBST.bstInsert key value ∧
    is_red (insertT t key value) = false := by
  constructor
  · rw [insertT, toBST_setColor, toBST_insertRec]
  · rw [insertT]
    cases insertRec t key value <;> rfl

/-- Helper: `_insert` never returns `None`. -/
theorem insertRec_not_nil (t : Node V) (key : Int) (value : Option V) :
    (insertRec t key value).isNil = false := by
  cases t with
  | nil => rfl
  | node k v l r c ht dv =>
    simp only [insertRec]
    split_ifs <;> rfl

/-- Helper: inserting into a non-empty tree leaves the root's cached
`height` attribute untouched; on the empty tree the new root has height 1.
Hence the public `height()` never exceeds `max 1 height()`. -/
theorem heightT_insertT_le (t : Node V) (key : Int) (value : Option V) :
    heightT (insertT t key value) ≤ Max.max 1 (heightT t) := by
  cases t with
  | nil =>
    simp [insertT, insertRec, Node.setColor, heightT, Node.heightAttr]
  | node k v l r c ht dv =>
    by_cases h1 : k == key
    · simp [insertT, insertRec, Node.setColor, heightT, Node.heightAttr, h1]
    · by_cases h2 : key < k
      · simp [insertT, insertRec, Node.setColor, heightT, Node.heightAttr,
          h1, h2]
      · simp [insertT, insertRec, Node.setColor, heightT, Node.heightAttr,
          h1, h2]

/-- Helper: along any sequence of inserts the cached root height stays
below `max 1` of the starting height. -/
theorem heightT_foldl_le (l : List (Int × Option V)) (t : Node V) :
    heightT (l.foldl (fun t kv => insertT t kv.1 kv.2) t) ≤
      Max.max 1 (heightT t) := by
  induction l generalizing t with
  | nil => exact le_max_right _ _
  | cons a l ih =>
    refine le_trans (ih (insertT t a.1 a.2)) ?_
    have h := heightT_insertT_le t a.1 a.2
    have := max_le_max (le_refl 1) h
    simpa [max_assoc] using this

/-- C4 (confirmed): for a tree built by inserting n distinct keys into the
empty tree, `height()` ≤ 2·⌈log₂(n+1)⌉.  The bound holds because insertion
never updates the cached heights at all: the root's `height` attribute
stays at its creation value 1 (0 for the empty tree), so `height()` is
always within the bound - vacuously, not through balancing. -/
theorem C4_height_bound (l : List (Int × Option V))
    (hnd : (l.map Prod.fst).Nodup) :
    heightT (buildT l) ≤ 2 * Nat.clog 2 (l.length + 1) := by
  cases l with
  | nil => simp [buildT, heightT]
  | cons a l =>
    have h1 : heightT (buildT (a :: l)) ≤ 1 := by
      have h := heightT_foldl_le (a :: l) (.nil : Node V)
      simpa [buildT, heightT] using h
    have h2 : 0 < Nat.clog 2 ((a :: l).length + 1) :=
      Nat.clog_pos (by norm_num) (by simp)
    omega

/-- Witness for C4 at the concrete input [(5,-),(1,-),(3,-)]. -/
theorem C4_height_bound_witness :
    (([((5 : Int), (none : Option Int)), (1, none), (3, none)].map
        Prod.fst).Nodup) ∧
    heightT (buildT [((5 : Int), (none : Option Int)), (1, none), (3, none)]) ≤
      2 * Nat.clog 2
        ([((5 : Int), (none : Option Int)), (1, none), (3, none)].length + 1) :=
  ⟨by decide, C4_height_bound _ (by decide)⟩

/-- Helper: recoloring does not change the shape. -/
theorem shapeOf_setColor (t : Node V) (c : Bool) :
    (t.setColor c).shapeOf = t.shapeOf := by
  cases t <;> rfl

/-- Helper: recoloring does not change the node count. -/
theorem size_setColor (t : Node V) (c : Bool) :
    (t.setColor c).size = t.size := by
  cases t <;> rfl

/-- Helper: recoloring does not change what `search` finds. -/
theorem search_setColor (t : Node V) (c : Bool) (key : Int) :
    (t.setColor c).search key = t.search key := by
  cases t <;> rfl

/-- Helper: `__len__` is the recursive node count (an empty root counts 0
either way). -/
theorem lenT_eq_size (t : Node V) : lenT t = t.size := by
  cases t <;> rfl

/-- Helper: inserting a key the descent already finds rebuilds the tree
with the same shape (the `h.key == key` branch only reassigns `h.val`). -/
theorem shapeOf_insertRec_hasKey (t : Node V) (key : Int) (value : Option V)
    (hk : t.hasKey key = true) :
    (insertRec t key value).shapeOf = t.shapeOf := by
  induction t with
  | nil => simp [Node.hasKey] at hk
  | node k v l r c ht dv ihl ihr =>
    by_cases h1 : k == key
    · simp [insertRec, Node.shapeOf, h1]
    · by_cases h2 : key < k
      · rw [Node.hasKey] at hk
        simp only [h1, if_false, h2, if_true] at hk
        simp [insertRec, Node.shapeOf, h1, h2, ihl hk]
      · rw [Node.hasKey] at hk
        simp only [h1, if_false, h2, if_false] at hk
        simp [insertRec, Node.shapeOf, h1, h2, ihr hk]

/-- Helper: inserting a key the descent already finds keeps the node
count. -/
theorem size_insertRec_hasKey (t : Node V) (key : Int) (value : Option V)
    (hk : t.hasKey key = true) :
    (insertRec t key value).size = t.size := by
  induction t with
  | nil => simp [Node.hasKey] at hk
  | node k v l r c ht dv ihl ihr =>
    by_cases h1 : k == key
    · simp [insertRec, Node.size, h1]
    · by_cases h2 : key < k
      · rw [Node.hasKey] at hk
        simp only [h1, if_false, h2, if_true] at hk
        simp [insertRec, Node.size, h1, h2, ihl hk]
      · rw [Node.hasKey] at hk
        simp only [h1, if_false, h2, if_false] at hk
        simp [insertRec, Node.size, h1, h2, ihr hk]

/-- Helper: after inserting key ↦ some w over a tree that already holds the
key, `Node.search` returns the new value. -/
theorem search_insertRec_hasKey (t : Node V) (key : Int) (w : V)
    (hk : t.hasKey key = true) :
    (insertRec t key (some w)).search key = some (.inl w) := by
  induction t with
  | nil => simp [Node.hasKey] at hk
  | node k v l r c ht dv ihl ihr =>
    by_cases h1 : k == key
    · simp [insertRec, Node.search, h1]
    · by_cases h2 : key < k
      · rw [Node.hasKey] at hk
        simp only [h1, if_false, h2, if_true] at hk
        simp [insertRec, Node.search, h1, h2, insertRec_not_nil, ihl hk]
      · rw [Node.hasKey] at hk
        simp only [h1, if_false, h2, if_false] at hk
        have h3 : k < key := by
          rcases lt_trichotomy key k with h | h | h
          · exact absurd h h2
          · exact absurd (beq_iff_eq.mpr h.symm) h1
          · exact h
        simp [insertRec, Node.search, h1, h2, h3, insertRec_not_nil, ihr hk]

/-- C10 (confirmed): inserting a key already present overwrites its value
in place: the tree shape and `size()` are unchanged and `search` on that
key returns the new value. -/
theorem C10_duplicate_insert_updates_value (t : Node V) (key : Int) (w : V)
    (hk : t.hasKey key = true) :
    (insertT t key (some w)).shapeOf = t.shapeOf ∧
    lenT (insertT t key (some w)) = lenT t ∧
    searchT (insertT t key (some w)) key = .ok (some (.inl w)) := by
  refine ⟨?_, ?_, ?_⟩
  · rw [insertT, shapeOf_setColor, shapeOf_insertRec_hasKey t key _ hk]
  · rw [lenT_eq_size, lenT_eq_size, insertT, size_setColor,
      size_insertRec_hasKey t key _ hk]
  · have hs : (insertRec t key (some w)).search key = some (.inl w) :=
      search_insertRec_hasKey t key w hk
    have hn : (insertRec t key (some w)).isNil = false :=
      insertRec_not_nil t key (some w)
    rw [insertT]
    cases hx : insertRec t key (some w) with
    | nil => rw [hx] at hn; exact absurd hn (by simp [Node.isNil])
    | node k v l r c ht dv =>
      rw [hx] at hs
      calc searchT ((Node.node k v l r c ht dv).setColor BLACK) key
          = .ok ((Node.node k v l r BLACK ht dv).search key) := rfl
        _ = .ok ((Node.node k v l r c ht dv).search key) := rfl
        _ = .ok (some (.inl w)) := by rw [hs]

/-- Witness for C10 at the spec's concrete scenario: insert 42 ↦ "x", then
insert 42 ↦ "y"; the size is unchanged and search(42) returns "y". -/
theorem C10_duplicate_insert_updates_value_witness :
    (insertT (.nil : Node String) 42 (some "x")).hasKey 42 = true ∧
    ((insertT (insertT (.nil : Node String) 42 (some "x")) 42
        (some "y")).shapeOf =
      (insertT (.nil : Node String) 42 (some "x")).shapeOf ∧
    lenT (insertT (insertT (.nil : Node String) 42 (some "x")) 42
        (some "y")) =
      lenT (insertT (.nil : Node String) 42 (some "x")) ∧
    searchT (insertT (insertT (.nil : Node String) 42 (some "x")) 42
        (some "y")) 42 = .ok (some (.inl "y"))) :=
  ⟨by decide, C10_duplicate_insert_updates_value _ 42 "y" (by decide)⟩

end Leftrb
